import Mathlib

/-!
Verification development for the EDA utility module (`notebooks/utils.py`)
of the analyst-ratings repository.

The tabular dataset (a pandas `DataFrame`) is shallowly embedded as a list of
named, typed columns together with row-major cell data.  Numeric values are
modelled as rationals (`ℚ`); timestamps as integers (nanoseconds since the
Unix epoch, pandas' `datetime64[ns]` representation); missing values
(`NaN`/`NaT`/`None`) as an explicit `null` cell.  The external CSV/date
parsers are abstracted: a parsed file is a list of rows, and
`pd.to_datetime`'s string parser is a parameter `parse : String → Option ℤ`
(`errors='coerce'` semantics: parse failure yields `null`).
-/

namespace StockEDA

/-- A single cell of the tabular dataset: missing (`NaN`/`NaT`), a numeric
value, a text value, a timestamp (ns since epoch, `datetime64[ns]`), or a
calendar date without time (the result of `.dt.date`, stored as whole days
since epoch). -/
inductive Cell
  | null
  | num (q : ℚ)
  | str (s : String)
  | date (t : ℤ)
  | dateOnly (d : ℤ)
  deriving DecidableEq, Repr

/-- Column dtype as the source discriminates them: `numeric` stands for
pandas `int64`/`float64`, `datetime` for `datetime64[ns]`, `obj` for
everything else (text/object). -/
inductive Dtype
  | numeric
  | obj
  | datetime
  deriving DecidableEq, Repr

/-- The Tabular Dataset: named columns with dtypes, rows of cells.
`rows` is row-major; cell `i` of a row belongs to column `cols[i]`. -/
structure DataFrame where
  cols : List String
  dtypes : List Dtype
  rows : List (List Cell)
  deriving DecidableEq, Repr

def Cell.isNull : Cell → Bool
  | .null => true
  | _ => false

/-- The numeric value carried by a cell, if any. -/
def cellNum : Cell → Option ℚ
  | .num q => some q
  | _ => none

/-- Read cell `i` of a row (missing positions read as null, as pandas
reads an absent value). -/
def getCell (r : List Cell) (i : ℕ) : Cell := r.getD i .null

/-- Index of a named column, as `df.columns` position lookup. -/
def colIdx (df : DataFrame) (name : String) : Option ℕ :=
  df.cols.findIdx? (· == name)

/-- The cells of column `i`, read across all rows. -/
def colCells (rows : List (List Cell)) (i : ℕ) : List Cell :=
  rows.map (fun r => getCell r i)

/-- The non-null numeric values of column `i` (pandas numeric operations
skip `NaN`). -/
def numsOfCol (rows : List (List Cell)) (i : ℕ) : List ℚ :=
  (colCells rows i).filterMap cellNum

/-- Dtype of column `i` (`obj` for an out-of-range index). -/
def dtypeAt (df : DataFrame) (i : ℕ) : Dtype := df.dtypes.getD i .obj

/-! ## Loader (`load_data`)

The CSV file is abstracted as its parsed list of rows.  The source tests the
row cap for truthiness (`if sample_size:`), so both `None` and `0` load the
whole file, while a positive cap reads the first `nrows` rows. -/

def load_data (fileRows : List (List Cell)) (sample_size : Option ℕ := none) :
    List (List Cell) :=
  match sample_size with
  | some n => if n ≠ 0 then fileRows.take n else fileRows
  | none => fileRows

/-! ## Statistics helpers -/

/-- Ascending sort, as `np.sort` / the implicit order used by quantiles. -/
def sortedVals (values : List ℚ) : List ℚ :=
  List.insertionSort (· ≤ ·) values

/-- `np.sum(index * sorted_values)` where `index = [k, k+1, ...]`; the
source calls it with 1-based ranks. -/
def weightedSum : ℕ → List ℚ → ℚ
  | _, [] => 0
  | k, x :: xs => (k : ℚ) * x + weightedSum (k + 1) xs

/-- `gini_coefficient`: sort ascending, return
`(2·Σ(i·x_i)) / (n·Σx_i) − (n+1)/n` with 1-based ranks `i`. -/
def gini_coefficient (values : List ℚ) : ℚ :=
  (2 * weightedSum 1 (sortedVals values)) /
      ((values.length : ℚ) * (sortedVals values).sum) -
    ((values.length : ℚ) + 1) / (values.length : ℚ)

/-- `series.mean()`. -/
def seriesMean (series : List ℚ) : ℚ := series.sum / (series.length : ℚ)

/-- `series.std() ** 2`: the sample variance (`ddof = 1`),
`Σ(x−mean)² / (n−1)`. -/
def seriesVar (series : List ℚ) : ℚ :=
  (series.map (fun x => (x - seriesMean series) ^ 2)).sum /
    ((series.length : ℚ) - 1)

/-- The comparison `x > mean + threshold_std * std` of `identify_spikes`,
expressed inside `ℚ` by squaring: for `threshold_std ≥ 0` and a nonnegative
variance, `x > mean + k·√var ↔ x > mean ∧ k²·var < (x−mean)²` (proved below
as `lt_add_mul_sqrt_iff`). -/
def spikeBool (series : List ℚ) (threshold_std : ℚ) (x : ℚ) : Bool :=
  decide (seriesMean series < x) &&
    decide (threshold_std ^ 2 * seriesVar series < (x - seriesMean series) ^ 2)

/-- `identify_spikes`: keep the values strictly above
`mean + threshold_std * std`, preserving order. -/
def identify_spikes (series : List ℚ) (threshold_std : ℚ := 2) : List ℚ :=
  series.filter (spikeBool series threshold_std)

/-! ## Quality Checker (`check_data_quality`) — outlier section

Only the IQR-based outlier scan is claim-relevant.  `Series.quantile` uses
linear interpolation (the pandas default) and skips `NaN`; the comparisons
`(col < lb) | (col > ub)` are false on `NaN`, so outliers are counted over
the non-null numeric values. -/

/-- Linear-interpolation quantile (pandas `Series.quantile` default):
position `q·(n−1)` into the ascending sort, interpolating between the two
neighbouring values.  `none` on an empty column (pandas returns `NaN`). -/
def quantileLin (xs : List ℚ) (q : ℚ) : Option ℚ :=
  let s := sortedVals xs
  let n := xs.length
  if n = 0 then none
  else
    let pos : ℚ := q * ((n : ℚ) - 1)
    let i : ℕ := ⌊pos⌋.toNat
    let frac : ℚ := pos - (i : ℚ)
    some (s.getD i 0 + frac * (s.getD (i + 1) 0 - s.getD i 0))

/-- `[Q1 − 1.5·IQR, Q3 + 1.5·IQR]` with `Q1 = quantile(0.25)`,
`Q3 = quantile(0.75)`, `IQR = Q3 − Q1`. -/
def outlierBounds (xs : List ℚ) : Option (ℚ × ℚ) :=
  match quantileLin xs (1/4), quantileLin xs (3/4) with
  | some q1, some q3 =>
      let iqr := q3 - q1
      some (q1 - 3/2 * iqr, q3 + 3/2 * iqr)
  | _, _ => none

/-- Count of values strictly outside the outlier bounds
(`(col < lb) | (col > ub)`). -/
def countOutliers (xs : List ℚ) : ℕ :=
  match outlierBounds xs with
  | some (lb, ub) => (xs.filter (fun x => decide (x < lb) || decide (ub < x))).length
  | none => 0

/-- One entry of the outlier section of the quality report. -/
structure ColOutliers where
  col : String
  count : ℕ
  lower_bound : ℚ
  upper_bound : ℚ
  deriving DecidableEq, Repr

/-- The outlier section of `check_data_quality`: scan every numeric column
in order, record only columns with at least one outlier. -/
def check_outliers (df : DataFrame) : List ColOutliers :=
  (List.range df.cols.length).filterMap (fun i =>
    if dtypeAt df i = .numeric then
      match outlierBounds (numsOfCol df.rows i) with
      | some (lb, ub) =>
          let c := countOutliers (numsOfCol df.rows i)
          if c > 0 then some ⟨df.cols.getD i "", c, lb, ub⟩ else none
      | none => none
    else none)

/-! ## Cleaner (`clean_data`) -/

/-- The `handle_missing` policy. -/
inductive HandleMissing
  | report
  | drop
  | fill
  deriving DecidableEq, Repr

/-- Replace cell `i` of a row (rows shorter than `i` are left unchanged). -/
def modifyCell : List Cell → ℕ → (Cell → Cell) → List Cell
  | [], _, _ => []
  | c :: cs, 0, f => f c :: cs
  | c :: cs, n + 1, f => c :: modifyCell cs n f

/-- `pd.to_datetime(·, errors='coerce')` on one cell: strings go through the
external date parser (failure coerces to `NaT`/null), timestamps are kept,
numbers are interpreted as epoch-nanosecond offsets, calendar dates become
midnight timestamps, and nulls stay null. -/
def toDatetimeCell (parse : String → Option ℤ) : Cell → Cell
  | .str s => match parse s with
    | some t => .date t
    | none => .null
  | .date t => .date t
  | .num q => .date ⌊q⌋
  | .dateOnly d => .date (d * 86400000000000)
  | .null => .null

/-- `df.dropna()`: keep only rows without any null cell. -/
def dropnaAll (rows : List (List Cell)) : List (List Cell) :=
  rows.filter (fun r => !r.any Cell.isNull)

/-- `fillna(v)` on one cell. -/
def fillNullWith (v : Cell) (c : Cell) : Cell :=
  if c.isNull then v else c

/-- Median of a list (pandas `Series.median` over the non-null values):
middle of the ascending sort, averaging the two middles for even length;
`none` when there is nothing to take a median of (pandas returns `NaN`,
so the subsequent `fillna` fills nothing). -/
def median (xs : List ℚ) : Option ℚ :=
  let s := sortedVals xs
  let n := xs.length
  if n = 0 then none
  else if n % 2 = 1 then some (s.getD (n / 2) 0)
  else some ((s.getD (n / 2 - 1) 0 + s.getD (n / 2) 0) / 2)

/-- The fill action of `handle_missing='fill'` for column `i` of `df`:
columns without nulls are untouched; numeric columns fill nulls with the
column median (a median of `NaN` — empty numeric column — fills nothing);
all other columns fill nulls with the literal string `"Unknown"`.
The loop in the source mutates one column at a time, but each column's
decision depends only on that column, so the whole step is this per-cell
map. -/
def colFillFn (df : DataFrame) (i : ℕ) : Cell → Cell :=
  if (colCells df.rows i).any Cell.isNull then
    match dtypeAt df i with
    | .numeric =>
        match median (numsOfCol df.rows i) with
        | some m => fillNullWith (.num m)
        | none => id
    | _ => fillNullWith (.str "Unknown")
  else id

/-- Apply the per-column fill actions across one row, `j` being the column
index of the first cell. -/
def fillRow (df : DataFrame) : ℕ → List Cell → List Cell
  | _, [] => []
  | j, c :: cs => colFillFn df j c :: fillRow df (j + 1) cs

/-- The `handle_missing='fill'` step over the whole frame. -/
def fillMissing (df : DataFrame) : DataFrame :=
  ⟨df.cols, df.dtypes, df.rows.map (fillRow df 0)⟩

/-- Helper for `drop_duplicates`: keep the rows not seen before, first
occurrence wins, order of survivors preserved. -/
def dedupAux (seen : List (List Cell)) : List (List Cell) → List (List Cell)
  | [] => []
  | r :: rs => if r ∈ seen then dedupAux seen rs else r :: dedupAux (r :: seen) rs

/-- `df.drop_duplicates()`: remove exact duplicate rows, keeping the first
occurrence, preserving order of survivors. -/
def dedupRows (rows : List (List Cell)) : List (List Cell) :=
  dedupAux [] rows

/-- Step 1 of `clean_data` (`fix_dates`): coerce the `date` column to
timestamps; with `handle_missing='drop'`, rows whose date is null after
coercion are dropped here (`dropna(subset=['date'])`).  The source only
performs that drop when some date is invalid, but the filter is a no-op
otherwise, so it is applied unconditionally here.  The column dtype becomes
`datetime64[ns]`. -/
def fixDatesStep (parse : String → Option ℤ) (hm : HandleMissing)
    (df : DataFrame) : DataFrame :=
  match colIdx df "date" with
  | some i =>
      let rows1 := df.rows.map (fun r => modifyCell r i (toDatetimeCell parse))
      let rows2 :=
        if hm = .drop then rows1.filter (fun r => !(getCell r i).isNull)
        else rows1
      ⟨df.cols, df.dtypes.set i .datetime, rows2⟩
  | none => df

/-- `clean_data`: (1) fix dates, (2) handle missing values per policy,
(3) drop duplicate rows — in that order. -/
def clean_data (parse : String → Option ℤ) (df : DataFrame)
    (remove_duplicates : Bool := true) (handle_missing : HandleMissing := .report)
    (fix_dates : Bool := true) : DataFrame :=
  let df1 := if fix_dates then fixDatesStep parse handle_missing df else df
  let df2 :=
    match handle_missing with
    | .report => df1
    | .drop => ⟨df1.cols, df1.dtypes, dropnaAll df1.rows⟩
    | .fill => fillMissing df1
  if remove_duplicates then ⟨df2.cols, df2.dtypes, dedupRows df2.rows⟩ else df2

/-! ## Feature Builder (`preprocess_data`)

Temporal fields are derived from the `datetime64[ns]` payload with the
standard proleptic-Gregorian (civil) calendar arithmetic; floored division
matches the timestamp semantics for pre-epoch instants. -/

def nsPerDay : ℤ := 86400000000000

def nsPerHour : ℤ := 3600000000000

/-- Civil calendar date `(year, month, day)` from a count of days since
1970-01-01 (standard era-based algorithm). -/
def civilFromDays (z : ℤ) : ℤ × ℤ × ℤ :=
  let z' := z + 719468
  let era := Int.fdiv z' 146097
  let doe := z' - era * 146097
  let yoe := Int.fdiv (doe - Int.fdiv doe 1460 + Int.fdiv doe 36524 - Int.fdiv doe 146096) 365
  let y := yoe + era * 400
  let doy := doe - (365 * yoe + Int.fdiv yoe 4 - Int.fdiv yoe 100)
  let mp := Int.fdiv (5 * doy + 2) 153
  let d := doy - Int.fdiv (153 * mp + 2) 5 + 1
  let m := mp + (if mp < 10 then 3 else -9)
  (if m ≤ 2 then y + 1 else y, m, d)

/-- `.dt.day_name()`: 1970-01-01 (day 0) was a Thursday. -/
def dayName (z : ℤ) : String :=
  match (Int.fmod (z + 3) 7).toNat with
  | 0 => "Monday"
  | 1 => "Tuesday"
  | 2 => "Wednesday"
  | 3 => "Thursday"
  | 4 => "Friday"
  | 5 => "Saturday"
  | _ => "Sunday"

/-- The six derived temporal cells (`year`, `month`, `day`, `day_of_week`,
`hour`, `date_only`) of one timestamp. -/
def temporalCells (t : ℤ) : List Cell :=
  let z := Int.fdiv t nsPerDay
  let ymd := civilFromDays z
  [.num ymd.1, .num ymd.2.1, .num ymd.2.2, .str (dayName z),
    .num (Int.fdiv (Int.fmod t nsPerDay) nsPerHour), .dateOnly z]

/-- Temporal derivation of one `date` cell: a missing date (`NaT`) derives
missing fields (`.dt` accessors yield `NaN` there). -/
def temporalCellsOf : Cell → List Cell
  | .date t => temporalCells t
  | _ => [.null, .null, .null, .null, .null, .null]

/-- Append the six temporal feature columns derived from the `date` column
at index `i`. -/
def addTemporal (df : DataFrame) (i : ℕ) : DataFrame :=
  ⟨df.cols ++ ["year", "month", "day", "day_of_week", "hour", "date_only"],
    df.dtypes ++ [.numeric, .numeric, .numeric, .obj, .numeric, .obj],
    df.rows.map (fun r => r ++ temporalCellsOf (getCell r i))⟩

/-- `.str.len()` on one headline cell (`NaN` for non-string entries). -/
def headlineLenCell : Cell → Cell
  | .str s => .num (s.length : ℚ)
  | _ => .null

/-- `.str.split().str.len()` on one headline cell: number of
whitespace-delimited tokens (runs of whitespace collapse, as Python
`str.split()`). -/
def headlineWordsCell : Cell → Cell
  | .str s => .num (((s.split Char.isWhitespace).filter (fun w => w ≠ "")).length : ℚ)
  | _ => .null

/-- Append the two headline metric columns derived from the `headline`
column at index `i`. -/
def addHeadline (df : DataFrame) (i : ℕ) : DataFrame :=
  ⟨df.cols ++ ["headline_length", "headline_word_count"],
    df.dtypes ++ [.numeric, .numeric],
    df.rows.map (fun r =>
      r ++ [headlineLenCell (getCell r i), headlineWordsCell (getCell r i)])⟩

/-- Stage 1 of `preprocess_data`: derive temporal features when a
`datetime64[ns]` `date` column exists, otherwise pass through. -/
def tempStage (df : DataFrame) : DataFrame :=
  match colIdx df "date" with
  | some i => if dtypeAt df i = .datetime then addTemporal df i else df
  | none => df

/-- Stage 2 of `preprocess_data`: derive headline metrics when a `headline`
column exists, otherwise pass through. -/
def headlineStage (df : DataFrame) : DataFrame :=
  match colIdx df "headline" with
  | some i => addHeadline df i
  | none => df

/-- `preprocess_data`: derive temporal features when a `datetime64[ns]`
`date` column exists, derive headline metrics when a `headline` column
exists.  The closing diagnostic print evaluates `df['date'].min()` and
`df['date'].max()` unconditionally, so the function raises `KeyError`
whenever the frame has no `date` column; that failure is modelled as
`Except.error`. -/
def preprocess_data (df : DataFrame) : Except String DataFrame :=
  match colIdx (headlineStage (tempStage df)) "date" with
  | some _ => .ok (headlineStage (tempStage df))
  | none => .error "KeyError: 'date'"

/-! ## Theorems -/

/-- Claim C1: the claim says `preprocess_data` never raises when the `date`
column is absent.  The guarded derivations do skip, and a present but
non-timestamp `date` column indeed passes through with only headline
metrics added; but the closing diagnostic print accesses `df['date']`
unconditionally, so a frame with no `date` column raises `KeyError`.  This
theorem exhibits the failing input (a one-column frame with only
`headline`) and, for contrast, the successful non-timestamp-date run. -/
theorem preprocess_data_keyerror_on_missing_date :
    preprocess_data ⟨["headline"], [.obj], [[.str "Some headline"]]⟩ =
        .error "KeyError: 'date'" ∧
      Except.map DataFrame.cols
          (preprocess_data ⟨["date", "headline"], [.obj, .obj],
            [[.str "2020-06-05", .str "Stocks rally"]]⟩) =
        .ok ["date", "headline", "headline_length", "headline_word_count"] := by
  exact ⟨rfl, rfl⟩

/-- Claim C3: the Quality Checker's IQR outlier scan on the column
`[1,2,3,4,5,100]` computes `Q1 = 2.25` and `Q3 = 4.75` by linear
interpolation, bounds `[-1.5, 8.5]`, and flags exactly the value `100` as
the sole outlier. -/
theorem check_outliers_iqr_example :
    quantileLin [1, 2, 3, 4, 5, 100] (1/4) = some (9/4) ∧
      quantileLin [1, 2, 3, 4, 5, 100] (3/4) = some (19/4) ∧
      outlierBounds [1, 2, 3, 4, 5, 100] = some (-(3/2), 17/2) ∧
      ([1, 2, 3, 4, 5, 100] : List ℚ).filter
          (fun x => decide (x < -(3/2)) || decide ((17/2 : ℚ) < x)) = [100] ∧
      check_outliers ⟨["score"], [.numeric],
          [[.num 1], [.num 2], [.num 3], [.num 4], [.num 5], [.num 100]]⟩ =
        [⟨"score", 1, -(3/2), 17/2⟩] := by
  refine ⟨?_, ?_, ?_, ?_, ?_⟩
  · norm_num [quantileLin, sortedVals, List.insertionSort, List.orderedInsert,
      show Int.toNat 1 = 1 from rfl]
  · norm_num [quantileLin, sortedVals, List.insertionSort, List.orderedInsert,
      show Int.toNat 3 = 3 from rfl]
  · norm_num [outlierBounds, quantileLin, sortedVals, List.insertionSort, List.orderedInsert,
      show Int.toNat 1 = 1 from rfl, show Int.toNat 3 = 3 from rfl]
  · norm_num [List.filter]
  · norm_num [check_outliers, countOutliers, outlierBounds, quantileLin, sortedVals,
      List.insertionSort, List.orderedInsert, List.filter, List.range_succ,
      show Int.toNat 1 = 1 from rfl, show Int.toNat 3 = 3 from rfl,
      numsOfCol, colCells, getCell, cellNum, dtypeAt, List.filterMap]

/-- Claim C8: with a positive row cap `n` the Loader returns exactly the
first `n` rows of the file in file order, and with no cap it returns all
rows. -/
theorem load_data_first_rows (fileRows : List (List Cell)) (n : ℕ) (h : 0 < n) :
    load_data fileRows (some n) = fileRows.take n ∧
      load_data fileRows none = fileRows := by
  refine ⟨?_, rfl⟩
  simp [load_data, Nat.pos_iff_ne_zero.mp h]

theorem load_data_first_rows_witness :
    0 < 2 ∧
      (load_data [[Cell.num 1], [Cell.num 2], [Cell.num 3]] (some 2) =
          ([[Cell.num 1], [Cell.num 2], [Cell.num 3]] : List (List Cell)).take 2 ∧
        load_data [[Cell.num 1], [Cell.num 2], [Cell.num 3]] none =
          [[Cell.num 1], [Cell.num 2], [Cell.num 3]]) :=
  ⟨by decide, load_data_first_rows _ 2 (by decide)⟩

/-- Claim C9: `sample_size=0` fails the truthiness test `if sample_size:`,
so the zero cap is ignored and the whole file is loaded (not an empty
dataset). -/
theorem load_data_zero_cap (fileRows : List (List Cell)) :
    load_data fileRows (some 0) = fileRows ∧
      load_data [[Cell.num 1]] (some 0) ≠ [] :=
  ⟨rfl, by decide⟩

/-- Claim C10: `gini_coefficient` sorts its input ascending before applying
the rank formula, so it is invariant under permutation of the input. -/
theorem gini_coefficient_perm_invariant (vs ws : List ℚ) (h : vs.Perm ws) :
    gini_coefficient vs = gini_coefficient ws := by
  have hs : sortedVals vs = sortedVals ws :=
    List.eq_of_perm_of_sorted
      (((List.perm_insertionSort _ vs).trans h).trans
        (List.perm_insertionSort _ ws).symm)
      (List.sorted_insertionSort _ vs) (List.sorted_insertionSort _ ws)
  unfold gini_coefficient
  rw [hs, h.length_eq]

theorem gini_coefficient_perm_invariant_witness :
    ([1, 2, 10] : List ℚ).Perm [10, 1, 2] ∧
      gini_coefficient [1, 2, 10] = gini_coefficient [10, 1, 2] :=
  ⟨by decide, gini_coefficient_perm_invariant _ _ (by decide)⟩

/-! ### Gini coefficient: range and reference values (C6) -/

lemma weightedSum_eq_sum_range (k : ℕ) (l : List ℚ) :
    weightedSum k l = ∑ i ∈ Finset.range l.length, ((k : ℚ) + (i : ℚ)) * l.getD i 0 := by
  induction l generalizing k with
  | nil => simp [weightedSum]
  | cons x xs ih =>
      rw [weightedSum, ih (k + 1), List.length_cons, Finset.sum_range_succ']
      simp only [List.getD_cons_succ, List.getD_cons_zero, Nat.cast_zero, add_zero,
        Nat.cast_add, Nat.cast_one]
      rw [add_comm]
      congr 1
      exact Finset.sum_congr rfl (fun i _ => by ring)

lemma list_sum_eq_sum_range (l : List ℚ) :
    l.sum = ∑ i ∈ Finset.range l.length, l.getD i 0 := by
  induction l with
  | nil => simp
  | cons x xs ih =>
      rw [List.sum_cons, ih, List.length_cons, Finset.sum_range_succ']
      simp only [List.getD_cons_succ, List.getD_cons_zero]
      exact add_comm _ _

lemma sum_range_cast_add_one (n : ℕ) :
    (∑ i ∈ Finset.range n, ((i : ℚ) + 1)) * 2 = (n : ℚ) * ((n : ℚ) + 1) := by
  induction n with
  | zero => simp
  | succ m ih =>
      rw [Finset.sum_range_succ, add_mul, ih]
      push_cast
      ring

lemma sortedVals_getD_mono (vs : List ℚ) {i j : ℕ} (hij : i ≤ j)
    (hj : j < (sortedVals vs).length) :
    (sortedVals vs).getD i 0 ≤ (sortedVals vs).getD j 0 := by
  have hi : i < (sortedVals vs).length := Nat.lt_of_le_of_lt hij hj
  rw [List.getD_eq_getElem _ _ hi, List.getD_eq_getElem _ _ hj]
  rcases Nat.lt_or_ge i j with hlt | hge
  · have h := (List.sorted_insertionSort _ vs).rel_get_of_lt
      (a := ⟨i, hi⟩) (b := ⟨j, hj⟩) (Fin.mk_lt_mk.mpr hlt)
    simpa using h
  · have h : i = j := le_antisymm hij hge
    subst h
    exact le_refl _

lemma sortedVals_getD_nonneg (vs : List ℚ) (hnn : ∀ x ∈ vs, 0 ≤ x) (i : ℕ) :
    0 ≤ (sortedVals vs).getD i 0 := by
  by_cases hi : i < (sortedVals vs).length
  · rw [List.getD_eq_getElem _ _ hi]
    exact hnn _ ((List.perm_insertionSort _ vs).mem_iff.mp (List.getElem_mem hi))
  · rw [List.getD_eq_default _ _ (Nat.le_of_not_lt hi)]

/-- Claim C6: for a non-empty list of non-negative values with positive sum,
`gini_coefficient` (sort ascending, `(2·Σ i·x_i)/(n·Σ x_i) − (n+1)/n`) lies
in `[0, 1]`; its reference values are `0` on `[1,1,1,1]` and `3/4` on
`[0,0,0,10]`. -/
theorem gini_coefficient_spec (vs : List ℚ) (hne : vs ≠ [])
    (hnn : ∀ x ∈ vs, 0 ≤ x) (hpos : 0 < vs.sum) :
    (0 ≤ gini_coefficient vs ∧ gini_coefficient vs ≤ 1) ∧
      gini_coefficient [1, 1, 1, 1] = 0 ∧
      gini_coefficient [0, 0, 0, 10] = 3 / 4 := by
  refine ⟨?_, ?_, ?_⟩
  · -- bounds via Chebyshev's sum inequality on the ascending sort
    have hlen : (sortedVals vs).length = vs.length :=
      (List.perm_insertionSort _ vs).length_eq
    have hsum : (sortedVals vs).sum = vs.sum := (List.perm_insertionSort _ vs).sum_eq
    set s : List ℚ := sortedVals vs with hs
    set n : ℕ := vs.length with hn
    have hn0 : 0 < n := List.length_pos.mpr hne
    have hnQ : (0 : ℚ) < (n : ℚ) := by exact_mod_cast hn0
    have hT : (0 : ℚ) < s.sum := hsum ▸ hpos
    set W : ℚ := weightedSum 1 s with hW
    set T : ℚ := s.sum with hTdef
    have hgini : gini_coefficient vs =
        (2 * W) / ((n : ℚ) * T) - ((n : ℚ) + 1) / (n : ℚ) := rfl
    have mono : MonovaryOn (fun i : ℕ => (i : ℚ) + 1) (fun i : ℕ => s.getD i 0)
        (Finset.range n) := by
      intro i hi j _ hlt
      by_contra hc
      push_neg at hc
      have hji : j ≤ i := by
        have : (j : ℚ) < (i : ℚ) := by linarith
        exact_mod_cast this.le
      have := sortedVals_getD_mono vs hji (by rw [hlen]; exact Finset.mem_range.mp hi)
      rw [← hs] at this
      exact absurd hlt (not_lt.mpr this)
    have cheb0 := mono.sum_mul_sum_le_card_mul_sum
    rw [Finset.card_range] at cheb0
    have hfg : ∑ i ∈ Finset.range n, ((i : ℚ) + 1) * s.getD i 0 = W := by
      rw [hW, weightedSum_eq_sum_range, hlen]
      exact Finset.sum_congr rfl (fun i _ => by push_cast; ring)
    have hgsum : ∑ i ∈ Finset.range n, s.getD i 0 = T := by
      rw [hTdef, list_sum_eq_sum_range, hlen]
    rw [hfg, hgsum] at cheb0
    have hSf := sum_range_cast_add_one n
    have cheb : ((n : ℚ) + 1) * T ≤ 2 * W := by
      have h2 : ((n : ℚ) * ((n : ℚ) + 1)) * T ≤ (n : ℚ) * (2 * W) := by
        nlinarith [cheb0]
      nlinarith [h2, hnQ, mul_pos hnQ hT]
    have upper : W ≤ (n : ℚ) * T := by
      rw [← hfg, ← hgsum, Finset.mul_sum]
      refine Finset.sum_le_sum (fun i hi => ?_)
      have hge : 0 ≤ s.getD i 0 := by
        have := sortedVals_getD_nonneg vs hnn i
        rwa [← hs] at this
      have hin : (i : ℚ) + 1 ≤ (n : ℚ) := by
        exact_mod_cast Nat.succ_le_of_lt (Finset.mem_range.mp hi)
      exact mul_le_mul_of_nonneg_right hin hge
    have hnT : (0 : ℚ) < (n : ℚ) * T := mul_pos hnQ hT
    have hA : ((n : ℚ) + 1) / (n : ℚ) ≤ (2 * W) / ((n : ℚ) * T) := by
      rw [div_le_div_iff₀ hnQ hnT]
      nlinarith [mul_le_mul_of_nonneg_left cheb (le_of_lt hnQ)]
    have hB : (2 * W) / ((n : ℚ) * T) ≤ 2 := by
      rw [div_le_iff₀ hnT]
      nlinarith [upper]
    have hC : 1 ≤ ((n : ℚ) + 1) / (n : ℚ) := by
      rw [le_div_iff₀ hnQ]
      linarith
    rw [hgini]
    constructor
    · linarith
    · linarith
  · norm_num [gini_coefficient, sortedVals, List.insertionSort, List.orderedInsert, weightedSum]
  · norm_num [gini_coefficient, sortedVals, List.insertionSort, List.orderedInsert, weightedSum]

theorem gini_coefficient_spec_witness :
    (([0, 0, 0, 10] : List ℚ) ≠ [] ∧ (∀ x ∈ ([0, 0, 0, 10] : List ℚ), 0 ≤ x) ∧
        0 < ([0, 0, 0, 10] : List ℚ).sum) ∧
      (0 ≤ gini_coefficient [0, 0, 0, 10] ∧ gini_coefficient [0, 0, 0, 10] ≤ 1) :=
  ⟨⟨by decide, by decide, by norm_num⟩,
    (gini_coefficient_spec [0, 0, 0, 10] (by decide) (by decide) (by norm_num)).1⟩

/-! ### Spike detection (C7) -/

lemma seriesVar_nonneg (series : List ℚ) : 0 ≤ seriesVar series := by
  cases series with
  | nil => simp [seriesVar]
  | cons x xs =>
      apply div_nonneg
      · apply List.sum_nonneg
        intro a ha
        rcases List.mem_map.mp ha with ⟨y, _, rfl⟩
        exact sq_nonneg _
      · rw [List.length_cons]
        push_cast
        linarith

/-- Squared form of a strict threshold comparison: for a nonnegative factor
`k` and nonnegative `v`, `m + k·√v < x` iff `m < x` and `k²·v < (x−m)²`. -/
lemma lt_add_mul_sqrt_iff {m v k x : ℝ} (hv : 0 ≤ v) (hk : 0 ≤ k) :
    m + k * Real.sqrt v < x ↔ m < x ∧ k ^ 2 * v < (x - m) ^ 2 := by
  have hs0 : 0 ≤ k * Real.sqrt v := mul_nonneg hk (Real.sqrt_nonneg v)
  constructor
  · intro h
    have hmx : m < x := lt_of_le_of_lt (le_add_of_nonneg_right hs0) h
    refine ⟨hmx, ?_⟩
    have h2 : k * Real.sqrt v < x - m := by linarith
    have h3 : (k * Real.sqrt v) ^ 2 < (x - m) ^ 2 := by nlinarith
    calc k ^ 2 * v = (k * Real.sqrt v) ^ 2 := by rw [mul_pow, Real.sq_sqrt hv]
      _ < (x - m) ^ 2 := h3
  · rintro ⟨hmx, hlt⟩
    have h1 : Real.sqrt (k ^ 2 * v) < Real.sqrt ((x - m) ^ 2) :=
      Real.sqrt_lt_sqrt (by positivity) hlt
    rw [Real.sqrt_sq (by linarith : (0 : ℝ) ≤ x - m)] at h1
    rw [Real.sqrt_mul (sq_nonneg k) v, Real.sqrt_sq hk] at h1
    linarith

/-- Claim C7: `identify_spikes` returns exactly the subsequence (a filter,
preserving order) of values strictly greater than
`mean + threshold_std · (sample std)`, and on `[1,1,1,1,1,100]` with
`threshold_std = 2` it returns only `100`. -/
theorem identify_spikes_spec (series : List ℚ) (k : ℚ) (hk : 0 ≤ k) :
    (identify_spikes series k = series.filter (spikeBool series k) ∧
      ∀ x : ℚ, spikeBool series k x = true ↔
        ((seriesMean series : ℝ) + (k : ℝ) * Real.sqrt ((seriesVar series : ℚ) : ℝ)
          < (x : ℝ))) ∧
      identify_spikes [1, 1, 1, 1, 1, 100] 2 = [100] := by
  refine ⟨⟨rfl, fun x => ?_⟩, ?_⟩
  · have hv : (0 : ℝ) ≤ ((seriesVar series : ℚ) : ℝ) := by
      exact_mod_cast seriesVar_nonneg series
    have hk' : (0 : ℝ) ≤ (k : ℝ) := by exact_mod_cast hk
    rw [spikeBool, Bool.and_eq_true, decide_eq_true_eq, decide_eq_true_eq,
      lt_add_mul_sqrt_iff hv hk']
    constructor
    · rintro ⟨h1, h2⟩
      exact ⟨by exact_mod_cast h1, by exact_mod_cast h2⟩
    · rintro ⟨h1, h2⟩
      exact ⟨by exact_mod_cast h1, by exact_mod_cast h2⟩
  · norm_num [identify_spikes, spikeBool, seriesMean, seriesVar, List.filter]

theorem identify_spikes_spec_witness :
    (0 : ℚ) ≤ 2 ∧ identify_spikes [1, 1, 1, 1, 1, 100] 2 = [100] :=
  ⟨by norm_num, (identify_spikes_spec [] 2 (by norm_num)).2⟩

/-! ### Cleaner and Feature Builder: structural lemmas (C2, C4, C5) -/

lemma dedupAux_length_le (l : List (List Cell)) :
    ∀ seen, (dedupAux seen l).length ≤ l.length := by
  induction l with
  | nil => intro seen; exact le_refl _
  | cons r rs ih =>
      intro seen
      rw [dedupAux]
      by_cases hr : r ∈ seen
      · rw [if_pos hr]
        exact le_trans (ih seen) (Nat.le_succ _)
      · rw [if_neg hr]
        exact Nat.succ_le_succ (ih (r :: seen))

lemma dedupRows_length_le (l : List (List Cell)) : (dedupRows l).length ≤ l.length :=
  dedupAux_length_le l []

lemma mem_dedupAux {x : List Cell} :
    ∀ {l : List (List Cell)} {seen}, x ∈ dedupAux seen l → x ∈ l := by
  intro l
  induction l with
  | nil => intro seen h; exact absurd h (by simp [dedupAux])
  | cons r rs ih =>
      intro seen h
      rw [dedupAux] at h
      by_cases hr : r ∈ seen
      · rw [if_pos hr] at h
        exact List.mem_cons_of_mem _ (ih h)
      · rw [if_neg hr] at h
        rcases List.mem_cons.mp h with h | h
        · exact h ▸ List.mem_cons_self _ _
        · exact List.mem_cons_of_mem _ (ih h)

lemma mem_dedupRows {x : List Cell} {l : List (List Cell)}
    (h : x ∈ dedupRows l) : x ∈ l :=
  mem_dedupAux h

lemma dedupAux_nodup_notin (l : List (List Cell)) :
    ∀ seen, (dedupAux seen l).Nodup ∧ ∀ x ∈ dedupAux seen l, x ∉ seen := by
  induction l with
  | nil => intro seen; simp [dedupAux]
  | cons r rs ih =>
      intro seen
      rw [dedupAux]
      by_cases hr : r ∈ seen
      · rw [if_pos hr]
        exact ih seen
      · rw [if_neg hr]
        obtain ⟨hnd, hnin⟩ := ih (r :: seen)
        refine ⟨List.nodup_cons.mpr ⟨?_, hnd⟩, ?_⟩
        · intro hmem
          exact (hnin r hmem) (List.mem_cons_self _ _)
        · intro x hx
          rcases List.mem_cons.mp hx with rfl | hx
          · exact hr
          · intro hxs
            exact (hnin x hx) (List.mem_cons_of_mem _ hxs)

lemma dedupAux_eq_self (l : List (List Cell)) :
    ∀ seen, l.Nodup → (∀ x ∈ l, x ∉ seen) → dedupAux seen l = l := by
  induction l with
  | nil => intro seen _ _; rfl
  | cons r rs ih =>
      intro seen hnd hdis
      rw [dedupAux, if_neg (hdis r (List.mem_cons_self _ _))]
      congr 1
      refine ih (r :: seen) (List.nodup_cons.mp hnd).2 ?_
      intro x hx
      intro hmem
      rcases List.mem_cons.mp hmem with rfl | hmem
      · exact (List.nodup_cons.mp hnd).1 hx
      · exact hdis x (List.mem_cons_of_mem _ hx) hmem

lemma dedupRows_idem (l : List (List Cell)) :
    dedupRows (dedupRows l) = dedupRows l := by
  unfold dedupRows
  exact dedupAux_eq_self _ [] (dedupAux_nodup_notin l []).1 (by simp)

lemma fixDatesStep_length_le (parse : String → Option ℤ) (hm : HandleMissing)
    (df : DataFrame) :
    (fixDatesStep parse hm df).rows.length ≤ df.rows.length := by
  unfold fixDatesStep
  rcases colIdx df "date" with _ | i
  · exact le_refl _
  · simp only
    by_cases hd : hm = .drop
    · simp only [hd, if_pos rfl]
      exact le_trans (List.length_filter_le _ _) (le_of_eq (List.length_map _ _))
    · simp only [if_neg hd]
      exact le_of_eq (List.length_map _ _)

lemma addTemporal_shape (df : DataFrame) (i : ℕ) :
    (addTemporal df i).rows.length = df.rows.length ∧
      (addTemporal df i).cols =
        df.cols ++ ["year", "month", "day", "day_of_week", "hour", "date_only"] :=
  ⟨List.length_map _ _, rfl⟩

lemma addHeadline_shape (df : DataFrame) (i : ℕ) :
    (addHeadline df i).rows.length = df.rows.length ∧
      (addHeadline df i).cols = df.cols ++ ["headline_length", "headline_word_count"] :=
  ⟨List.length_map _ _, rfl⟩

lemma tempStage_shape (df : DataFrame) :
    (tempStage df).rows.length = df.rows.length ∧
      ∃ e, (tempStage df).cols = df.cols ++ e := by
  unfold tempStage
  rcases colIdx df "date" with _ | i
  · exact ⟨rfl, [], by simp⟩
  · simp only
    by_cases hdt : dtypeAt df i = .datetime
    · rw [if_pos hdt]
      exact ⟨(addTemporal_shape df i).1, _, (addTemporal_shape df i).2⟩
    · rw [if_neg hdt]
      exact ⟨rfl, [], by simp⟩

lemma headlineStage_shape (df : DataFrame) :
    (headlineStage df).rows.length = df.rows.length ∧
      ∃ e, (headlineStage df).cols = df.cols ++ e := by
  unfold headlineStage
  rcases colIdx df "headline" with _ | i
  · exact ⟨rfl, [], by simp⟩
  · exact ⟨(addHeadline_shape df i).1, _, (addHeadline_shape df i).2⟩

lemma preprocess_data_shape (df : DataFrame) :
    ∀ out : DataFrame, preprocess_data df = .ok out →
      out.rows.length = df.rows.length ∧ ∃ extra, out.cols = df.cols ++ extra := by
  intro out hout
  unfold preprocess_data at hout
  rcases h : colIdx (headlineStage (tempStage df)) "date" with _ | k <;> rw [h] at hout
  · exact absurd hout (by simp)
  · rw [Except.ok.injEq] at hout
    subst hout
    obtain ⟨hl1, e1, hc1⟩ := tempStage_shape df
    obtain ⟨hl2, e2, hc2⟩ := headlineStage_shape (tempStage df)
    exact ⟨by rw [hl2, hl1], e1 ++ e2, by rw [hc2, hc1, List.append_assoc]⟩

/-- Claim C5: the Cleaner never increases the row count (any policy), and
when the Feature Builder completes it preserves the row count and only adds
columns (the original columns remain a prefix of the output's). -/
theorem clean_data_preprocess_row_counts (parse : String → Option ℤ)
    (df : DataFrame) (rd : Bool) (hm : HandleMissing) (fd : Bool) :
    (clean_data parse df rd hm fd).rows.length ≤ df.rows.length ∧
      ∀ out : DataFrame, preprocess_data df = .ok out →
        out.rows.length = df.rows.length ∧ ∃ extra, out.cols = df.cols ++ extra := by
  refine ⟨?_, preprocess_data_shape df⟩
  unfold clean_data
  have h1 : (if fd then fixDatesStep parse hm df else df).rows.length ≤
      df.rows.length := by
    by_cases hfd : fd
    · simpa [hfd] using fixDatesStep_length_le parse hm df
    · simp [hfd]
  set df1 := if fd then fixDatesStep parse hm df else df with hdf1
  have h2 : (match hm with
      | HandleMissing.report => df1
      | HandleMissing.drop => ⟨df1.cols, df1.dtypes, dropnaAll df1.rows⟩
      | HandleMissing.fill => fillMissing df1).rows.length ≤ df1.rows.length := by
    cases hm
    · exact le_refl _
    · exact List.length_filter_le _ _
    · exact le_of_eq (List.length_map _ _)
  set df2 := (match hm with
      | HandleMissing.report => df1
      | HandleMissing.drop => ⟨df1.cols, df1.dtypes, dropnaAll df1.rows⟩
      | HandleMissing.fill => fillMissing df1) with hdf2
  by_cases hrd : rd
  · simp only [hrd, if_pos rfl]
    exact le_trans (dedupRows_length_le _) (le_trans h2 h1)
  · simp only [if_neg hrd]
    exact le_trans h2 h1

theorem clean_data_preprocess_row_counts_witness :
    (clean_data (fun _ => none) ⟨["date"], [.datetime], [[.date 0], [.date 0]]⟩
        true .report true).rows.length ≤ 2 ∧
      (⟨["date", "year", "month", "day", "day_of_week", "hour", "date_only"],
          [.datetime, .numeric, .numeric, .numeric, .obj, .numeric, .obj],
          ([] : List (List Cell))⟩ : DataFrame).rows.length = 0 ∧
        ∃ extra,
          (["date", "year", "month", "day", "day_of_week", "hour", "date_only"] :
              List String) = ["date"] ++ extra := by
  have h := clean_data_preprocess_row_counts (fun _ => none)
    ⟨["date"], [.datetime], [[.date 0], [.date 0]]⟩ true .report true
  have h2 := clean_data_preprocess_row_counts (fun _ => none)
    ⟨["date"], [.datetime], ([] : List (List Cell))⟩ true .report true
  refine ⟨h.1, ?_⟩
  have := h2.2
    ⟨["date", "year", "month", "day", "day_of_week", "hour", "date_only"],
      [.datetime, .numeric, .numeric, .numeric, .obj, .numeric, .obj], []⟩ rfl
  exact this

/-! ### The missing-value fill invariant (C2) -/

/-- Does any cell of any row hold a null?  The decidable form of the
missing-value invariant. -/
def hasNullCell (rows : List (List Cell)) : Bool :=
  rows.any (fun r => r.any Cell.isNull)

lemma eq_null_of_isNull {c : Cell} (h : c.isNull = true) : c = .null := by
  cases c <;> simp_all [Cell.isNull]

lemma isNull_eq_false_of_ne {c : Cell} (h : c ≠ .null) : c.isNull = false := by
  cases c <;> simp_all [Cell.isNull]

lemma fillNullWith_eq_null {v c : Cell} (h : fillNullWith v c = .null) :
    c = .null ∧ v = .null := by
  cases c <;> simp_all [fillNullWith, Cell.isNull]

lemma colFillFn_cases (D : DataFrame) (i : ℕ) :
    colFillFn D i = id ∨ ∃ v, v ≠ Cell.null ∧ colFillFn D i = fillNullWith v := by
  unfold colFillFn
  split
  · split
    · split
      · exact Or.inr ⟨_, by simp, rfl⟩
      · exact Or.inl rfl
    all_goals exact Or.inr ⟨_, by simp, rfl⟩
  · exact Or.inl rfl

lemma colFillFn_of_not_null (D : DataFrame) (i : ℕ) {c : Cell}
    (hc : c.isNull = false) : colFillFn D i c = c := by
  rcases colFillFn_cases D i with h | ⟨v, _, h⟩
  · rw [h]; rfl
  · rw [h]
    unfold fillNullWith
    rw [hc]
    rfl

lemma median_isSome_of_ne_nil {xs : List ℚ} (h : xs ≠ []) :
    ∃ m, median xs = some m := by
  unfold median
  rw [if_neg (fun h0 => h (List.length_eq_zero.mp h0))]
  split <;> exact ⟨_, rfl⟩

lemma median_eq_none {xs : List ℚ} (h : median xs = none) : xs = [] := by
  by_contra hne
  obtain ⟨m, hm⟩ := median_isSome_of_ne_nil hne
  rw [hm] at h
  exact Option.noConfusion h

lemma colFillFn_null_cases (D : DataFrame) (i : ℕ)
    (h : colFillFn D i .null = .null) :
    (colCells D.rows i).any Cell.isNull = false ∨
      (dtypeAt D i = .numeric ∧ numsOfCol D.rows i = []) := by
  unfold colFillFn at h
  by_cases hany : (colCells D.rows i).any Cell.isNull = true
  · rw [if_pos hany] at h
    right
    rcases hdt : dtypeAt D i with _ | _ | _ <;> rw [hdt] at h
    · rcases hmed : median (numsOfCol D.rows i) with _ | m <;> rw [hmed] at h
      · exact ⟨rfl, median_eq_none hmed⟩
      · exact absurd (fillNullWith_eq_null h).2 (by simp)
    · exact absurd (fillNullWith_eq_null h).2 (by simp)
    · exact absurd (fillNullWith_eq_null h).2 (by simp)
  · exact Or.inl (Bool.eq_false_iff.mpr hany)

lemma lt_of_dtypeAt_numeric {df : DataFrame} {i : ℕ}
    (h : dtypeAt df i = .numeric) : i < df.dtypes.length := by
  by_contra hge
  rw [dtypeAt, List.getD_eq_default _ _ (Nat.le_of_not_lt hge)] at h
  exact Dtype.noConfusion h

lemma modifyCell_length (r : List Cell) (i : ℕ) (f : Cell → Cell) :
    (modifyCell r i f).length = r.length := by
  induction r generalizing i with
  | nil => rfl
  | cons c cs ih =>
      cases i with
      | zero => rfl
      | succ i' => simp [modifyCell, ih]

lemma getCell_modifyCell_ne (r : List Cell) (i j : ℕ) (f : Cell → Cell)
    (hij : j ≠ i) : getCell (modifyCell r i f) j = getCell r j := by
  induction r generalizing i j with
  | nil => rfl
  | cons c cs ih =>
      cases i with
      | zero =>
          cases j with
          | zero => exact absurd rfl hij
          | succ j' => rfl
      | succ i' =>
          cases j with
          | zero => rfl
          | succ j' =>
              simp only [modifyCell, getCell, List.getD_cons_succ]
              exact ih i' j' (fun h => hij (by rw [h]))

lemma getCell_modifyCell_self (r : List Cell) (i : ℕ) (f : Cell → Cell)
    (hi : i < r.length) : getCell (modifyCell r i f) i = f (getCell r i) := by
  induction r generalizing i with
  | nil => exact absurd hi (by simp)
  | cons c cs ih =>
      cases i with
      | zero => rfl
      | succ i' =>
          simp only [modifyCell, getCell, List.getD_cons_succ]
          exact ih i' (by simpa using hi)

lemma colCells_map_modify_ne (rows : List (List Cell)) (i j : ℕ)
    (f : Cell → Cell) (hij : j ≠ i) :
    colCells (rows.map (fun r => modifyCell r i f)) j = colCells rows j := by
  unfold colCells
  rw [List.map_map]
  exact List.map_congr_left (fun r _ => getCell_modifyCell_ne r i j f hij)

lemma fillRow_length (D : DataFrame) (j : ℕ) (r : List Cell) :
    (fillRow D j r).length = r.length := by
  induction r generalizing j with
  | nil => rfl
  | cons c cs ih => simp [fillRow, ih]

lemma getCell_fillRow (D : DataFrame) (j k : ℕ) (r : List Cell)
    (hk : k < r.length) :
    getCell (fillRow D j r) k = colFillFn D (j + k) (getCell r k) := by
  induction r generalizing j k with
  | nil => exact absurd hk (by simp)
  | cons c cs ih =>
      cases k with
      | zero => simp [fillRow, getCell]
      | succ k' =>
          have hk' : k' < cs.length := by simpa using hk
          have harith : j + (k' + 1) = (j + 1) + k' := by omega
          simp only [fillRow, getCell, List.getD_cons_succ]
          rw [harith]
          exact ih (j + 1) k' hk'

lemma forall_getCell_not_null {r : List Cell}
    (h : ∀ k, k < r.length → (getCell r k).isNull = false) :
    r.any Cell.isNull = false := by
  rw [List.any_eq_false]
  intro c hc
  obtain ⟨k, hk, rfl⟩ := List.mem_iff_getElem.mp hc
  have h2 := h k hk
  rw [getCell, List.getD_eq_getElem _ _ hk] at h2
  simp [h2]

lemma fillMissing_no_nulls (D : DataFrame)
    (H : ∀ i, dtypeAt D i = .numeric → numsOfCol D.rows i ≠ []) :
    ∀ r ∈ (fillMissing D).rows, r.any Cell.isNull = false := by
  intro r hr
  unfold fillMissing at hr
  obtain ⟨r₀, hr₀, rfl⟩ := List.mem_map.mp hr
  apply forall_getCell_not_null
  intro k hk
  rw [fillRow_length] at hk
  rw [getCell_fillRow D 0 k r₀ hk, Nat.zero_add]
  by_cases hc : getCell r₀ k = Cell.null
  · rw [hc]
    by_contra hbad
    have hnull : colFillFn D k .null = .null := by
      apply eq_null_of_isNull
      cases hres : (colFillFn D k Cell.null).isNull
      · exact absurd hres hbad
      · rfl
    rcases colFillFn_null_cases D k hnull with h3 | ⟨hnum, hnil⟩
    · have hany : (colCells D.rows k).any Cell.isNull = true := by
        rw [List.any_eq_true]
        refine ⟨getCell r₀ k, List.mem_map.mpr ⟨r₀, hr₀, rfl⟩, ?_⟩
        rw [hc]
        rfl
      rw [hany] at h3
      exact Bool.noConfusion h3
    · exact H k hnum hnil
  · rw [colFillFn_of_not_null D k (isNull_eq_false_of_ne hc)]
    exact isNull_eq_false_of_ne hc

lemma hasNullCell_eq_false {rows : List (List Cell)}
    (h : ∀ r ∈ rows, r.any Cell.isNull = false) : hasNullCell rows = false := by
  unfold hasNullCell
  rw [List.any_eq_false]
  intro r hr
  simp [h r hr]

/-- Claim C2 (amended): with `handle_missing='fill'`, columns with nulls are
filled (numeric with the column median, others with `"Unknown"`), and no
nulls remain — provided every numeric column holds at least one numeric
value.  (The unamended claim fails on an all-null numeric column, whose
median is `NaN` and fills nothing: see the counterexample.) -/
theorem clean_data_fill_no_nulls (parse : String → Option ℤ) (df : DataFrame)
    (rd fd : Bool)
    (H : ∀ i, i < df.dtypes.length → dtypeAt df i = .numeric →
      numsOfCol df.rows i ≠ []) :
    hasNullCell (clean_data parse df rd .fill fd).rows = false := by
  have H' : ∀ i, dtypeAt df i = .numeric → numsOfCol df.rows i ≠ [] :=
    fun i hi => H i (lt_of_dtypeAt_numeric hi) hi
  set D1 := if fd then fixDatesStep parse HandleMissing.fill df else df with hD1
  have H1 : ∀ i, dtypeAt D1 i = .numeric → numsOfCol D1.rows i ≠ [] := by
    by_cases hfd : fd
    · rw [hD1, if_pos hfd]
      unfold fixDatesStep
      rcases hci : colIdx df "date" with _ | i0
      · exact H'
      · simp only
        rw [if_neg (by simp : ¬HandleMissing.fill = HandleMissing.drop)]
        intro j hj
        have hjlen : j < df.dtypes.length := by
          have := lt_of_dtypeAt_numeric hj
          simpa using this
        have hji0 : j ≠ i0 := by
          intro hji
          subst hji
          rw [dtypeAt, List.getD_eq_getElem _ _ (by simpa using hjlen),
            List.getElem_set_self] at hj
          exact Dtype.noConfusion hj
        have hdt : dtypeAt df j = .numeric := by
          rw [dtypeAt, List.getD_eq_getElem _ _ hjlen]
          rw [dtypeAt, List.getD_eq_getElem _ _ (by simpa using hjlen),
            List.getElem_set_ne (fun h => hji0 h.symm)] at hj
          exact hj
        have hcol : numsOfCol
            (df.rows.map (fun r => modifyCell r i0 (toDatetimeCell parse))) j =
            numsOfCol df.rows j := by
          unfold numsOfCol
          rw [colCells_map_modify_ne df.rows i0 j _ hji0]
        rw [hcol]
        exact H' j hdt
    · rw [hD1, if_neg hfd]
      exact H'
  have hfill := fillMissing_no_nulls D1 H1
  show hasNullCell (clean_data parse df rd .fill fd).rows = false
  unfold clean_data
  rw [← hD1]
  by_cases hrd : rd
  · rw [if_pos hrd]
    apply hasNullCell_eq_false
    intro r hr
    exact hfill r (mem_dedupRows hr)
  · rw [if_neg hrd]
    exact hasNullCell_eq_false hfill

theorem clean_data_fill_no_nulls_witness :
    (∀ i, i < (⟨["a", "b"], [Dtype.numeric, Dtype.obj],
        [[Cell.null, Cell.null], [Cell.num 3, Cell.str "x"]]⟩ :
          DataFrame).dtypes.length →
      dtypeAt ⟨["a", "b"], [Dtype.numeric, Dtype.obj],
        [[Cell.null, Cell.null], [Cell.num 3, Cell.str "x"]]⟩ i = .numeric →
      numsOfCol (⟨["a", "b"], [Dtype.numeric, Dtype.obj],
        [[Cell.null, Cell.null], [Cell.num 3, Cell.str "x"]]⟩ :
          DataFrame).rows i ≠ []) ∧
      hasNullCell (clean_data (fun _ => none)
        ⟨["a", "b"], [Dtype.numeric, Dtype.obj],
          [[Cell.null, Cell.null], [Cell.num 3, Cell.str "x"]]⟩
        true .fill true).rows = false :=
  ⟨by decide,
    clean_data_fill_no_nulls (fun _ => none) _ true true (by decide)⟩

/-- Claim C2, counterexample to the unamended claim: an all-null numeric
column survives `handle_missing='fill'` untouched (its median is `NaN`), so
a null remains in the output. -/
theorem clean_data_fill_counterexample :
    (clean_data (fun _ => none) ⟨["x"], [Dtype.numeric], [[Cell.null]]⟩
        true .fill true).rows = [[Cell.null]] := by
  rfl

/-! ### Idempotence of cleaning (C4) -/

/-- The missing-value step of `clean_data` as a function of the policy,
named for the idempotence proof (`clean_data` itself inlines this match). -/
def step2f (hm : HandleMissing) (X : DataFrame) : DataFrame :=
  match hm with
  | .report => X
  | .drop => ⟨X.cols, X.dtypes, dropnaAll X.rows⟩
  | .fill => fillMissing X

lemma clean_data_true_eq (parse : String → Option ℤ) (df : DataFrame)
    (hm : HandleMissing) (fd : Bool) :
    clean_data parse df true hm fd =
      ⟨(step2f hm (if fd then fixDatesStep parse hm df else df)).cols,
        (step2f hm (if fd then fixDatesStep parse hm df else df)).dtypes,
        dedupRows (step2f hm (if fd then fixDatesStep parse hm df else df)).rows⟩ := by
  cases hm <;> rfl

lemma map_eq_self_of {α : Type} {l : List α} {f : α → α}
    (h : ∀ x ∈ l, f x = x) : l.map f = l := by
  induction l with
  | nil => rfl
  | cons x xs ih =>
      rw [List.map_cons, h x (List.mem_cons_self _ _),
        ih (fun y hy => h y (List.mem_cons_of_mem _ hy))]

lemma eq_of_getCell {l₁ l₂ : List Cell} (hlen : l₁.length = l₂.length)
    (h : ∀ k, k < l₁.length → getCell l₁ k = getCell l₂ k) : l₁ = l₂ := by
  induction l₁ generalizing l₂ with
  | nil => exact (List.length_eq_zero.mp hlen.symm).symm
  | cons c cs ih =>
      cases l₂ with
      | nil => exact absurd hlen (by simp)
      | cons d ds =>
          have h0 := h 0 (by simp)
          simp only [getCell, List.getD_cons_zero] at h0
          subst h0
          congr 1
          refine ih (by simpa using hlen) (fun k hk => ?_)
          have := h (k + 1) (by simpa using Nat.succ_lt_succ hk)
          simpa only [getCell, List.getD_cons_succ] using this

lemma toDatetimeCell_idem (parse : String → Option ℤ) (c : Cell) :
    toDatetimeCell parse (toDatetimeCell parse c) = toDatetimeCell parse c := by
  cases c <;> simp only [toDatetimeCell]
  rcases parse _ with _ | t <;> rfl

lemma toDatetimeCell_image (parse : String → Option ℤ) (c : Cell) :
    toDatetimeCell parse c = .null ∨ ∃ t, toDatetimeCell parse c = .date t := by
  cases c with
  | null => exact Or.inl rfl
  | num q => exact Or.inr ⟨_, rfl⟩
  | str s =>
      rcases hp : parse s with _ | t
      · exact Or.inl (by simp [toDatetimeCell, hp])
      · exact Or.inr ⟨t, by simp [toDatetimeCell, hp]⟩
  | date t => exact Or.inr ⟨_, rfl⟩
  | dateOnly d => exact Or.inr ⟨_, rfl⟩

lemma modifyCell_modifyCell (r : List Cell) (i : ℕ) (f g : Cell → Cell) :
    modifyCell (modifyCell r i f) i g = modifyCell r i (fun c => g (f c)) := by
  induction r generalizing i with
  | nil => rfl
  | cons c cs ih =>
      cases i with
      | zero => rfl
      | succ i' => simp [modifyCell, ih]

lemma modifyCell_toDT_idem (parse : String → Option ℤ) (r : List Cell) (i : ℕ) :
    modifyCell (modifyCell r i (toDatetimeCell parse)) i (toDatetimeCell parse) =
      modifyCell r i (toDatetimeCell parse) := by
  rw [modifyCell_modifyCell]
  congr 1
  funext c
  exact toDatetimeCell_idem parse c

lemma fixDatesStep_none (parse : String → Option ℤ) (hm : HandleMissing)
    {df : DataFrame} (h : colIdx df "date" = none) :
    fixDatesStep parse hm df = df := by
  unfold fixDatesStep
  rw [h]

lemma colFillFn_eq_id_of (D : DataFrame) (k : ℕ) (h1 : dtypeAt D k = .numeric)
    (h2 : numsOfCol D.rows k = []) : colFillFn D k = id := by
  unfold colFillFn
  rw [h1, h2]
  split
  · rfl
  · rfl

lemma colFillFn_eq_id_of_no_null (D : DataFrame) (k : ℕ)
    (h : (colCells D.rows k).any Cell.isNull = false) : colFillFn D k = id := by
  unfold colFillFn
  rw [h]
  rfl

lemma colFillFn_null_unknown (D : DataFrame) (k : ℕ)
    (hany : (colCells D.rows k).any Cell.isNull = true)
    (hdt : dtypeAt D k ≠ .numeric) :
    colFillFn D k .null = .str "Unknown" := by
  unfold colFillFn
  rw [hany]
  rcases h : dtypeAt D k with _ | _ | _
  · exact absurd h hdt
  · rfl
  · rfl

lemma numsOfCol_eq_nil_iff {rows : List (List Cell)} {k : ℕ} :
    numsOfCol rows k = [] ↔ ∀ r ∈ rows, cellNum (getCell r k) = none := by
  unfold numsOfCol colCells
  rw [List.filterMap_eq_nil_iff]
  constructor
  · intro h r hr
    exact h _ (List.mem_map.mpr ⟨r, hr, rfl⟩)
  · intro h c hc
    obtain ⟨r, hr, rfl⟩ := List.mem_map.mp hc
    exact h r hr

/-- If the fill step leaves a null at column `k` of a row of `D`, then that
column was a numeric column with no numeric values at all (the `NaN`-median
case), and the input cell was already null. -/
lemma fill_null_analysis (D : DataFrame) {r₀ : List Cell} (hr₀ : r₀ ∈ D.rows)
    {k : ℕ} (hnull : colFillFn D k (getCell r₀ k) = .null) :
    getCell r₀ k = .null ∧ dtypeAt D k = .numeric ∧ numsOfCol D.rows k = [] := by
  have hc0 : getCell r₀ k = .null := by
    by_contra hne
    rw [colFillFn_of_not_null D k (isNull_eq_false_of_ne hne)] at hnull
    exact hne hnull
  refine ⟨hc0, ?_⟩
  rw [hc0] at hnull
  rcases colFillFn_null_cases D k hnull with h | h
  · exfalso
    have : (colCells D.rows k).any Cell.isNull = true := by
      rw [List.any_eq_true]
      exact ⟨getCell r₀ k, List.mem_map.mpr ⟨r₀, hr₀, rfl⟩, by rw [hc0]; rfl⟩
    rw [this] at h
    exact Bool.noConfusion h
  · exact h

lemma getCell_fillRow_of_id (D : DataFrame) (r₀ : List Cell) (k : ℕ)
    (hid : colFillFn D k = id) :
    getCell (fillRow D 0 r₀) k = getCell r₀ k ∨
      getCell (fillRow D 0 r₀) k = .null := by
  by_cases hk : k < r₀.length
  · rw [getCell_fillRow D 0 k r₀ hk, Nat.zero_add, hid]
    exact Or.inl rfl
  · right
    rw [getCell, List.getD_eq_default]
    rw [fillRow_length]
    exact Nat.le_of_not_lt hk

lemma dtype_set_datetime_ne_numeric (l : List Dtype) (i : ℕ) :
    (l.set i Dtype.datetime).getD i Dtype.obj ≠ Dtype.numeric := by
  by_cases hi : i < l.length
  · rw [List.getD_eq_getElem _ _ (by simpa using hi), List.getElem_set_self]
    simp
  · rw [List.getD_eq_default _ _ (by simpa using Nat.le_of_not_lt hi)]
    simp

lemma dropnaAll_dedup_dropna (X : List (List Cell)) :
    dropnaAll (dedupRows (dropnaAll X)) = dedupRows (dropnaAll X) := by
  apply List.filter_eq_self.mpr
  intro r hr
  exact (List.mem_filter.mp (mem_dedupRows hr)).2

lemma map_modify_toDT_stable (parse : String → Option ℤ) (i0 : ℕ)
    {rows : List (List Cell)}
    (h : ∀ r ∈ rows, ∃ r', r = modifyCell r' i0 (toDatetimeCell parse)) :
    rows.map (fun r => modifyCell r i0 (toDatetimeCell parse)) = rows := by
  apply map_eq_self_of
  intro r hr
  obtain ⟨r', rfl⟩ := h r hr
  exact modifyCell_toDT_idem parse r' i0

/-- A frame whose rows are fill-outputs of `D` (and whose dtypes agree with
`D`'s) is a fixed point of the fill step: filling again changes nothing. -/
lemma fillRow_stable_mem (D E : DataFrame)
    (hdt : ∀ k, dtypeAt E k = dtypeAt D k)
    (hsub : ∀ q ∈ E.rows, ∃ q₀ ∈ D.rows, q = fillRow D 0 q₀)
    {r : List Cell} (hr : r ∈ E.rows) :
    fillRow E 0 r = r := by
  obtain ⟨r₀, hr₀, hreq⟩ := hsub r hr
  apply eq_of_getCell (fillRow_length E 0 r)
  intro k hk
  rw [fillRow_length] at hk
  rw [getCell_fillRow E 0 k r hk, Nat.zero_add]
  by_cases hc : getCell r k = .null
  · rw [hc]
    have hk0 : k < r₀.length := by
      rw [hreq, fillRow_length] at hk
      exact hk
    have h1 : colFillFn D k (getCell r₀ k) = .null := by
      have h := getCell_fillRow D 0 k r₀ hk0
      rw [Nat.zero_add, ← hreq, hc] at h
      exact h.symm
    obtain ⟨_, hnum, hnil⟩ := fill_null_analysis D hr₀ h1
    have hnrE : numsOfCol E.rows k = [] := by
      rw [numsOfCol_eq_nil_iff]
      intro q hq
      obtain ⟨q₀, hq₀, rfl⟩ := hsub q hq
      rcases getCell_fillRow_of_id D q₀ k (colFillFn_eq_id_of D k hnum hnil) with h | h
      · rw [h]
        exact numsOfCol_eq_nil_iff.mp hnil q₀ hq₀
      · rw [h]
        rfl
    rw [colFillFn_eq_id_of E k (by rw [hdt k]; exact hnum) hnrE]
    rfl
  · rw [colFillFn_of_not_null E k (isNull_eq_false_of_ne hc)]

/-- Without a date step, re-filling the deduplicated fill output changes
nothing (the fill case of idempotence, `fix_dates` inactive). -/
lemma fill_pass2_rows (D : DataFrame) (cs : List String) (dt : List Dtype)
    (hdt : ∀ k, dt.getD k Dtype.obj = dtypeAt D k) :
    (dedupRows (D.rows.map (fillRow D 0))).map
        (fillRow ⟨cs, dt, dedupRows (D.rows.map (fillRow D 0))⟩ 0) =
      dedupRows (D.rows.map (fillRow D 0)) := by
  apply map_eq_self_of
  intro r hr
  refine fillRow_stable_mem D
    ⟨cs, dt, dedupRows (D.rows.map (fillRow D 0))⟩ (fun k => hdt k) ?_ hr
  intro q hq
  obtain ⟨q₀, hq₀, rfl⟩ := List.mem_map.mp (mem_dedupRows hq)
  exact ⟨q₀, hq₀, rfl⟩

/-- The fill case of idempotence with an active date step: re-coercing the
date column (which turns the `"Unknown"` fills back into nulls, since
`"Unknown"` does not parse as a date) and re-filling restores the pass-1
output exactly. -/
lemma fill_fixdates_pass2_rows (parse : String → Option ℤ)
    (hU : parse "Unknown" = none) (df0 : DataFrame) (i0 : ℕ)
    (D : DataFrame)
    (hD : D = ⟨df0.cols, df0.dtypes.set i0 .datetime,
        df0.rows.map (fun r => modifyCell r i0 (toDatetimeCell parse))⟩)
    (cs : List String) (Ep : DataFrame)
    (hEp : Ep = ⟨cs, D.dtypes.set i0 .datetime,
        (dedupRows (D.rows.map (fillRow D 0))).map
          (fun r => modifyCell r i0 (toDatetimeCell parse))⟩) :
    Ep.rows.map (fillRow Ep 0) = dedupRows (D.rows.map (fillRow D 0)) := by
  have hdtypes : Ep.dtypes = D.dtypes := by
    rw [hEp, hD]
    simp [List.set_set]
  have hdtEp : ∀ k, dtypeAt Ep k = dtypeAt D k := by
    intro k
    rw [dtypeAt, dtypeAt, hdtypes]
  have hF1 : dtypeAt D i0 ≠ .numeric := by
    rw [hD]
    exact dtype_set_datetime_ne_numeric df0.dtypes i0
  have hrowsEp : Ep.rows = (dedupRows (D.rows.map (fillRow D 0))).map
      (fun r => modifyCell r i0 (toDatetimeCell parse)) := by rw [hEp]
  rw [hrowsEp, List.map_map]
  apply map_eq_self_of
  intro r hr
  obtain ⟨r₀, hr₀, hreq⟩ := List.mem_map.mp (mem_dedupRows hr)
  show fillRow Ep 0 (modifyCell r i0 (toDatetimeCell parse)) = r
  apply eq_of_getCell (by rw [fillRow_length, modifyCell_length])
  intro k hk
  rw [fillRow_length, modifyCell_length] at hk
  rw [getCell_fillRow Ep 0 k _ (by rw [modifyCell_length]; exact hk), Nat.zero_add]
  have hklen0 : k < r₀.length := by
    rw [← hreq, fillRow_length] at hk
    · exact hk
  have hcell : getCell r k = colFillFn D k (getCell r₀ k) := by
    have h := getCell_fillRow D 0 k r₀ hklen0
    rw [Nat.zero_add, hreq] at h
    exact h
  by_cases hki : k = i0
  · subst hki
    have hmod : getCell (modifyCell r k (toDatetimeCell parse)) k =
        toDatetimeCell parse (getCell r k) := getCell_modifyCell_self r k _ hk
    rw [hmod]
    have himg : getCell r₀ k = .null ∨ ∃ t, getCell r₀ k = .date t := by
      have hrD := hr₀
      rw [hD] at hrD
      obtain ⟨r₁, _, hr1⟩ := List.mem_map.mp hrD
      by_cases hlen : k < r₁.length
      · rw [← hr1, getCell_modifyCell_self r₁ k _ hlen]
        exact toDatetimeCell_image parse _
      · left
        rw [← hr1, getCell, List.getD_eq_default]
        rw [modifyCell_length]
        exact Nat.le_of_not_lt hlen
    by_cases hany : (colCells D.rows k).any Cell.isNull = true
    · rcases himg with h0 | ⟨t, ht⟩
      · have hc1 : getCell r k = .str "Unknown" := by
          rw [hcell, h0, colFillFn_null_unknown D k hany hF1]
        rw [hc1]
        have htd : toDatetimeCell parse (Cell.str "Unknown") = .null := by
          simp [toDatetimeCell, hU]
        rw [htd]
        have hanyEp : (colCells Ep.rows k).any Cell.isNull = true := by
          rw [List.any_eq_true]
          refine ⟨getCell (modifyCell r k (toDatetimeCell parse)) k, ?_, ?_⟩
          · rw [hrowsEp]
            exact List.mem_map.mpr ⟨modifyCell r k (toDatetimeCell parse),
              List.mem_map.mpr ⟨r, hr, rfl⟩, rfl⟩
          · rw [hmod, hc1, htd]
            rfl
        rw [colFillFn_null_unknown Ep k hanyEp (by rw [hdtEp k]; exact hF1)]
      · have hc1 : getCell r k = .date t := by
          rw [hcell, ht, colFillFn_of_not_null D k (by simp [Cell.isNull])]
        rw [hc1, show toDatetimeCell parse (Cell.date t) = Cell.date t from rfl,
          colFillFn_of_not_null Ep k (by simp [Cell.isNull])]
    · have hid := colFillFn_eq_id_of_no_null D k (Bool.eq_false_iff.mpr hany)
      have hc0ne : getCell r₀ k ≠ .null := by
        intro h0
        apply hany
        rw [List.any_eq_true]
        exact ⟨getCell r₀ k, List.mem_map.mpr ⟨r₀, hr₀, rfl⟩, by rw [h0]; rfl⟩
      rcases himg with h0 | ⟨t, ht⟩
      · exact absurd h0 hc0ne
      · have hc1 : getCell r k = .date t := by
          rw [hcell, hid, ht]
          rfl
        rw [hc1, show toDatetimeCell parse (Cell.date t) = Cell.date t from rfl,
          colFillFn_of_not_null Ep k (by simp [Cell.isNull])]
  · have hmod : getCell (modifyCell r i0 (toDatetimeCell parse)) k = getCell r k :=
      getCell_modifyCell_ne r i0 k _ hki
    rw [hmod]
    by_cases hc : getCell r k = .null
    · rw [hc]
      have h1 : colFillFn D k (getCell r₀ k) = .null := by
        rw [← hcell]
        exact hc
      obtain ⟨_, hnum, hnil⟩ := fill_null_analysis D hr₀ h1
      have hnrEp : numsOfCol Ep.rows k = [] := by
        rw [numsOfCol_eq_nil_iff]
        intro q hq
        rw [hrowsEp] at hq
        obtain ⟨q₁, hq₁, rfl⟩ := List.mem_map.mp hq
        rw [getCell_modifyCell_ne q₁ i0 k _ hki]
        obtain ⟨q₀, hq₀, rfl⟩ := List.mem_map.mp (mem_dedupRows hq₁)
        rcases getCell_fillRow_of_id D q₀ k (colFillFn_eq_id_of D k hnum hnil)
          with h | h
        · rw [h]
          exact numsOfCol_eq_nil_iff.mp hnil q₀ hq₀
        · rw [h]
          rfl
      rw [colFillFn_eq_id_of Ep k (by rw [hdtEp k]; exact hnum) hnrEp]
      rfl
    · rw [colFillFn_of_not_null Ep k (isNull_eq_false_of_ne hc)]

lemma step2f_cols (hm : HandleMissing) (X : DataFrame) :
    (step2f hm X).cols = X.cols := by
  cases hm <;> rfl

lemma fixDatesStep_cols (parse : String → Option ℤ) (hm : HandleMissing)
    (df : DataFrame) : (fixDatesStep parse hm df).cols = df.cols := by
  unfold fixDatesStep
  rcases colIdx df "date" with _ | i
  · rfl
  · rfl

lemma clean_data_true_false_eq (parse : String → Option ℤ) (df : DataFrame)
    (hm : HandleMissing) :
    clean_data parse df true hm false =
      ⟨(step2f hm df).cols, (step2f hm df).dtypes,
        dedupRows (step2f hm df).rows⟩ := by
  cases hm <;> rfl

lemma clean_data_true_true_eq (parse : String → Option ℤ) (df : DataFrame)
    (hm : HandleMissing) :
    clean_data parse df true hm true =
      ⟨(step2f hm (fixDatesStep parse hm df)).cols,
        (step2f hm (fixDatesStep parse hm df)).dtypes,
        dedupRows (step2f hm (fixDatesStep parse hm df)).rows⟩ := by
  cases hm <;> rfl

lemma clean_data_true_cols (parse : String → Option ℤ) (df : DataFrame)
    (hm : HandleMissing) (fd : Bool) :
    (clean_data parse df true hm fd).cols = df.cols := by
  cases fd
  · rw [clean_data_true_false_eq]
    exact step2f_cols hm df
  · rw [clean_data_true_true_eq]
    show (step2f hm (fixDatesStep parse hm df)).cols = df.cols
    rw [step2f_cols, fixDatesStep_cols]

/-- The three `handle_missing` cases of cleaning idempotence with
`fix_dates` inactive. -/
lemma clean_data_idem_nofd (parse : String → Option ℤ) (df : DataFrame)
    (hm : HandleMissing) :
    clean_data parse (clean_data parse df true hm false) true hm false =
      clean_data parse df true hm false := by
  cases hm with
  | report =>
      have e1 : clean_data parse df true .report false =
          ⟨df.cols, df.dtypes, dedupRows df.rows⟩ := rfl
      rw [e1]
      have e2 : clean_data parse
          (⟨df.cols, df.dtypes, dedupRows df.rows⟩ : DataFrame) true .report false =
          ⟨df.cols, df.dtypes, dedupRows (dedupRows df.rows)⟩ := rfl
      rw [e2, dedupRows_idem]
  | drop =>
      have e1 : clean_data parse df true .drop false =
          ⟨df.cols, df.dtypes, dedupRows (dropnaAll df.rows)⟩ := rfl
      rw [e1]
      have e2 : clean_data parse
          (⟨df.cols, df.dtypes, dedupRows (dropnaAll df.rows)⟩ : DataFrame)
          true .drop false =
          ⟨df.cols, df.dtypes,
            dedupRows (dropnaAll (dedupRows (dropnaAll df.rows)))⟩ := rfl
      rw [e2, dropnaAll_dedup_dropna, dedupRows_idem]
  | fill =>
      have e1 : clean_data parse df true .fill false =
          ⟨df.cols, df.dtypes, dedupRows (df.rows.map (fillRow df 0))⟩ := rfl
      rw [e1]
      have e2 : clean_data parse
          (⟨df.cols, df.dtypes, dedupRows (df.rows.map (fillRow df 0))⟩ : DataFrame)
          true .fill false =
          ⟨df.cols, df.dtypes,
            dedupRows ((dedupRows (df.rows.map (fillRow df 0))).map
              (fillRow ⟨df.cols, df.dtypes,
                dedupRows (df.rows.map (fillRow df 0))⟩ 0))⟩ := rfl
      rw [e2, fill_pass2_rows df df.cols df.dtypes (fun k => rfl), dedupRows_idem]

lemma clean_report_some_eq (parse : String → Option ℤ) (cs : List String)
    (dts : List Dtype) (rows : List (List Cell)) (i0 : ℕ)
    (hci : colIdx ⟨cs, dts, rows⟩ "date" = some i0) :
    clean_data parse ⟨cs, dts, rows⟩ true .report true =
      ⟨cs, dts.set i0 .datetime,
        dedupRows (rows.map (fun r => modifyCell r i0 (toDatetimeCell parse)))⟩ := by
  have hfx : fixDatesStep parse .report ⟨cs, dts, rows⟩ =
      ⟨cs, dts.set i0 .datetime,
        rows.map (fun r => modifyCell r i0 (toDatetimeCell parse))⟩ := by
    unfold fixDatesStep
    rw [hci]
    rfl
  rw [clean_data_true_true_eq, hfx]
  rfl

lemma clean_drop_some_eq (parse : String → Option ℤ) (cs : List String)
    (dts : List Dtype) (rows : List (List Cell)) (i0 : ℕ)
    (hci : colIdx ⟨cs, dts, rows⟩ "date" = some i0) :
    clean_data parse ⟨cs, dts, rows⟩ true .drop true =
      ⟨cs, dts.set i0 .datetime,
        dedupRows (dropnaAll
          ((rows.map (fun r => modifyCell r i0 (toDatetimeCell parse))).filter
            (fun r => !(getCell r i0).isNull)))⟩ := by
  have hfx : fixDatesStep parse .drop ⟨cs, dts, rows⟩ =
      ⟨cs, dts.set i0 .datetime,
        (rows.map (fun r => modifyCell r i0 (toDatetimeCell parse))).filter
          (fun r => !(getCell r i0).isNull)⟩ := by
    unfold fixDatesStep
    rw [hci]
    rfl
  rw [clean_data_true_true_eq, hfx]
  rfl

lemma clean_fill_some_eq (parse : String → Option ℤ) (cs : List String)
    (dts : List Dtype) (rows : List (List Cell)) (i0 : ℕ)
    (hci : colIdx ⟨cs, dts, rows⟩ "date" = some i0)
    (D : DataFrame)
    (hD : D = ⟨cs, dts.set i0 .datetime,
        rows.map (fun r => modifyCell r i0 (toDatetimeCell parse))⟩) :
    clean_data parse ⟨cs, dts, rows⟩ true .fill true =
      ⟨cs, dts.set i0 .datetime, dedupRows (D.rows.map (fillRow D 0))⟩ := by
  have hfx : fixDatesStep parse .fill ⟨cs, dts, rows⟩ = D := by
    unfold fixDatesStep
    rw [hci, hD]
    rfl
  rw [clean_data_true_true_eq, hfx, hD]
  rfl

/-- Claim C4: running the Cleaner with `remove_duplicates=True` on its own
output returns that output unchanged, for every missing-value policy and
date-fixing flag.  The only assumption on the external date parser is the
factual one that the literal fill value `"Unknown"` does not parse as a
date. -/
theorem clean_data_idempotent (parse : String → Option ℤ) (df : DataFrame)
    (hm : HandleMissing) (fd : Bool) (hU : parse "Unknown" = none) :
    clean_data parse (clean_data parse df true hm fd) true hm fd =
      clean_data parse df true hm fd := by
  cases fd with
  | false => exact clean_data_idem_nofd parse df hm
  | true =>
      rcases df with ⟨cs, dts, rows⟩
      rcases hci : colIdx (⟨cs, dts, rows⟩ : DataFrame) "date" with _ | i0
      · -- no date column: both passes skip the date step
        have hfix1 : fixDatesStep parse hm ⟨cs, dts, rows⟩ = ⟨cs, dts, rows⟩ :=
          fixDatesStep_none parse hm hci
        have h1 : clean_data parse ⟨cs, dts, rows⟩ true hm true =
            clean_data parse ⟨cs, dts, rows⟩ true hm false := by
          rw [clean_data_true_true_eq, hfix1, ← clean_data_true_false_eq]
        rw [h1]
        have hci3 : colIdx (clean_data parse ⟨cs, dts, rows⟩ true hm false)
            "date" = none := by
          unfold colIdx
          rw [clean_data_true_cols]
          exact hci
        have hfix2 := fixDatesStep_none parse hm hci3
        rw [clean_data_true_true_eq, hfix2, ← clean_data_true_false_eq]
        exact clean_data_idem_nofd parse ⟨cs, dts, rows⟩ hm
      · cases hm with
        | report =>
            rw [clean_report_some_eq parse cs dts rows i0 hci]
            rw [clean_report_some_eq parse cs (dts.set i0 .datetime)
              (dedupRows (rows.map (fun r => modifyCell r i0 (toDatetimeCell parse))))
              i0 hci]
            rw [List.set_set]
            have hstab : (dedupRows (rows.map
                (fun r => modifyCell r i0 (toDatetimeCell parse)))).map
                (fun r => modifyCell r i0 (toDatetimeCell parse)) =
                dedupRows (rows.map (fun r => modifyCell r i0 (toDatetimeCell parse))) := by
              apply map_modify_toDT_stable
              intro r hr
              obtain ⟨r', _, hr'⟩ := List.mem_map.mp (mem_dedupRows hr)
              exact ⟨r', hr'.symm⟩
            rw [hstab, dedupRows_idem]
        | drop =>
            rw [clean_drop_some_eq parse cs dts rows i0 hci]
            rw [clean_drop_some_eq parse cs (dts.set i0 .datetime)
              (dedupRows (dropnaAll
                ((rows.map (fun r => modifyCell r i0 (toDatetimeCell parse))).filter
                  (fun r => !(getCell r i0).isNull)))) i0 hci]
            rw [List.set_set]
            have hstab : (dedupRows (dropnaAll
                ((rows.map (fun r => modifyCell r i0 (toDatetimeCell parse))).filter
                  (fun r => !(getCell r i0).isNull)))).map
                (fun r => modifyCell r i0 (toDatetimeCell parse)) =
                dedupRows (dropnaAll
                  ((rows.map (fun r => modifyCell r i0 (toDatetimeCell parse))).filter
                    (fun r => !(getCell r i0).isNull))) := by
              apply map_modify_toDT_stable
              intro r hr
              have h1 := (List.mem_filter.mp
                (List.mem_filter.mp (mem_dedupRows hr)).1).1
              obtain ⟨r', _, hr'⟩ := List.mem_map.mp h1
              exact ⟨r', hr'.symm⟩
            rw [hstab]
            have hfilt : (dedupRows (dropnaAll
                ((rows.map (fun r => modifyCell r i0 (toDatetimeCell parse))).filter
                  (fun r => !(getCell r i0).isNull)))).filter
                (fun r => !(getCell r i0).isNull) =
                dedupRows (dropnaAll
                  ((rows.map (fun r => modifyCell r i0 (toDatetimeCell parse))).filter
                    (fun r => !(getCell r i0).isNull))) := by
              apply List.filter_eq_self.mpr
              intro r hr
              exact (List.mem_filter.mp (List.mem_filter.mp (mem_dedupRows hr)).1).2
            rw [hfilt]
            have hdrop2 : dropnaAll (dedupRows (dropnaAll
                ((rows.map (fun r => modifyCell r i0 (toDatetimeCell parse))).filter
                  (fun r => !(getCell r i0).isNull)))) =
                dedupRows (dropnaAll
                  ((rows.map (fun r => modifyCell r i0 (toDatetimeCell parse))).filter
                    (fun r => !(getCell r i0).isNull))) :=
              dropnaAll_dedup_dropna _
            rw [hdrop2, dedupRows_idem]
        | fill =>
            obtain ⟨D, hD⟩ : ∃ D : DataFrame,
                D = ⟨cs, dts.set i0 .datetime,
                  rows.map (fun r => modifyCell r i0 (toDatetimeCell parse))⟩ :=
              ⟨_, rfl⟩
            rw [clean_fill_some_eq parse cs dts rows i0 hci D hD]
            obtain ⟨Ep, hEp⟩ : ∃ Ep : DataFrame,
                Ep = ⟨cs, D.dtypes.set i0 .datetime,
                  (dedupRows (D.rows.map (fillRow D 0))).map
                    (fun r => modifyCell r i0 (toDatetimeCell parse))⟩ :=
              ⟨_, rfl⟩
            rw [clean_fill_some_eq parse cs (dts.set i0 .datetime)
              (dedupRows (D.rows.map (fillRow D 0))) i0 hci Ep
              (by rw [hEp, hD])]
            rw [fill_fixdates_pass2_rows parse hU ⟨cs, dts, rows⟩ i0 D hD cs Ep hEp]
            rw [List.set_set, dedupRows_idem]

theorem clean_data_idempotent_witness :
    ((fun _ : String => (none : Option ℤ)) "Unknown" = none) ∧
      clean_data (fun _ => none)
          (clean_data (fun _ => none)
            ⟨["date", "x"], [Dtype.obj, Dtype.numeric],
              [[Cell.str "bad", Cell.num 1], [Cell.str "bad", Cell.num 1],
                [Cell.null, Cell.num 2]]⟩
            true .fill true)
          true .fill true =
        clean_data (fun _ => none)
          ⟨["date", "x"], [Dtype.obj, Dtype.numeric],
            [[Cell.str "bad", Cell.num 1], [Cell.str "bad", Cell.num 1],
              [Cell.null, Cell.num 2]]⟩
          true .fill true :=
  ⟨rfl, clean_data_idempotent (fun _ => none) _ .fill true rfl⟩

end StockEDA
